import Mathlib

/-!
# Verification of `src/dashboard.js` (aftersales dashboard)

A shallow embedding of the browser-side dashboard script.  JavaScript
objects used as keyed maps are modelled as insertion-ordered association
lists over the string keys that JavaScript property access coerces to;
JavaScript numbers appearing in the data records are modelled as exact
integers, and the `Number(...)` conversion of the `id` query parameter is
modelled exactly (NaN, signed infinities, decimal/hex/octal/binary string
grammar) over the rationals.
-/

set_option autoImplicit false

/-- A JavaScript value as it occurs in the loaded JSON records: `null`,
`undefined`, a number (modelled as an exact integer), or a string. -/
inductive JSVal where
  | nullV
  | undefV
  | numV (n : Int)
  | strV (s : String)
  deriving DecidableEq, Repr

/-- JavaScript `ToString` on a `JSVal`: numbers print in decimal, `null`
and `undefined` print their names.  This is the coercion applied both by
template-literal interpolation and by property-key access `obj[v]`. -/
def jsToString : JSVal → String
  | JSVal.nullV => "null"
  | JSVal.undefV => "undefined"
  | JSVal.numV n => toString n
  | JSVal.strV s => s

/-- A JSON record (flat JavaScript object): fields in order. -/
abbrev JSRec := List (String × JSVal)

/-- JavaScript property read `r[f]` on a record: the value of the first
field named `f`, or `undefined` when the field is absent. -/
def getField (r : JSRec) (f : String) : JSVal :=
  (r.lookup f).getD JSVal.undefV

/-- The property-key string a record contributes under key field `key`:
`jsToString (r[key])`, as used by `acc[item[key]]` in the source. -/
def keyOf (r : JSRec) (key : String) : String :=
  jsToString (getField r key)

/-! ## JavaScript objects used as maps

`acc[k] = v` on a plain object updates the value in place when the key is
already present (keeping its position in insertion order) and appends the
key otherwise.  We model the object as the list of its string-keyed
properties in insertion order. -/

/-- Property read on the object model: value of key `k`, if present. -/
def jsGet {α : Type} : List (String × α) → String → Option α
  | [], _ => none
  | p :: ps, k => if p.1 = k then some p.2 else jsGet ps k

/-- Property write `m[k] = v`: update the (unique) existing binding in
place when `k` is present, append the new binding otherwise. -/
def jsSet {α : Type} : List (String × α) → String → α → List (String × α)
  | [], k, v => [(k, v)]
  | p :: ps, k, v => if p.1 = k then (k, v) :: ps else p :: jsSet ps k v

@[simp] theorem jsGet_nil {α : Type} (k : String) :
    jsGet ([] : List (String × α)) k = none := rfl

@[simp] theorem jsGet_cons {α : Type} (p : String × α) (ps : List (String × α))
    (k : String) :
    jsGet (p :: ps) k = if p.1 = k then some p.2 else jsGet ps k := rfl

theorem jsGet_eq_none_iff {α : Type} (m : List (String × α)) (k : String) :
    jsGet m k = none ↔ k ∉ m.map Prod.fst := by
  induction m with
  | nil => simp
  | cons p ps ih =>
    simp only [jsGet_cons, List.map_cons, List.mem_cons]
    by_cases h : p.1 = k
    · simp [h]
    · have h' : ¬ k = p.1 := fun hh => h hh.symm
      simp [h, h', ih]

theorem jsGet_set_self {α : Type} (m : List (String × α)) (k : String) (v : α) :
    jsGet (jsSet m k v) k = some v := by
  induction m with
  | nil => simp [jsSet]
  | cons p ps ih =>
    by_cases h : p.1 = k
    · simp [jsSet, h]
    · simp [jsSet, h, ih]

theorem jsGet_set_other {α : Type} (m : List (String × α)) (k k' : String)
    (v : α) (hne : k' ≠ k) : jsGet (jsSet m k v) k' = jsGet m k' := by
  induction m with
  | nil => simp [jsSet, Ne.symm hne]
  | cons p ps ih =>
    by_cases h : p.1 = k
    · subst h
      simp [jsSet, Ne.symm hne]
    · simp only [jsSet, h, if_false, jsGet_cons]
      by_cases hp : p.1 = k'
      · simp [hp]
      · simp [hp, ih]

/-- `indexBy(items, key)` from `src/dashboard.js` lines 9-14:
`items.reduce((acc, item) => { acc[item[key]] = item; return acc; }, {})`. -/
def indexBy (items : List JSRec) (key : String) : List (String × JSRec) :=
  items.foldl (fun acc item => jsSet acc (keyOf item key) item) []

theorem indexBy_go_not_mem (key : String) :
    ∀ (items : List JSRec) (acc : List (String × JSRec)) (k : String),
      k ∉ items.map (fun r => keyOf r key) →
      jsGet (items.foldl (fun a it => jsSet a (keyOf it key) it) acc) k
        = jsGet acc k := by
  intro items
  induction items with
  | nil => intro acc k _; rfl
  | cons i rest ih =>
    intro acc k hk
    simp only [List.map_cons, List.mem_cons] at hk
    push_neg at hk
    simp only [List.foldl_cons]
    rw [ih _ k hk.2, jsGet_set_other _ _ _ _ hk.1]

theorem indexBy_go_mem (key : String) :
    ∀ (items : List JSRec) (acc : List (String × JSRec)),
      (items.map fun r => keyOf r key).Nodup →
      ∀ r ∈ items,
        jsGet (items.foldl (fun a it => jsSet a (keyOf it key) it) acc)
          (keyOf r key) = some r := by
  intro items
  induction items with
  | nil => intro acc _ r hr; cases hr
  | cons i rest ih =>
    intro acc hnd r hr
    simp only [List.map_cons, List.nodup_cons] at hnd
    simp only [List.foldl_cons]
    rcases List.mem_cons.mp hr with h | h
    · subst h
      rw [indexBy_go_not_mem key rest _ _ hnd.1, jsGet_set_self]
    · exact ih _ hnd.2 r h

/-- C1: for a record sequence whose key values are pairwise distinct,
`indexBy` followed by lookup of each original record's key returns that
exact record, and lookup of any key occurring in no record returns an
absent result. -/
theorem indexBy_lookup_correct (items : List JSRec) (key : String)
    (hnd : (items.map fun r => keyOf r key).Nodup) :
    (∀ r ∈ items, jsGet (indexBy items key) (keyOf r key) = some r) ∧
    (∀ k, k ∉ items.map (fun r => keyOf r key) →
      jsGet (indexBy items key) k = none) := by
  constructor
  · intro r hr
    exact indexBy_go_mem key items [] hnd r hr
  · intro k hk
    rw [indexBy, indexBy_go_not_mem key items [] k hk, jsGet_nil]

/-- A concrete customer record used in witnesses. -/
def custA : JSRec :=
  [("CustomerID", JSVal.numV 1), ("CustomerName", JSVal.strV "Ada"),
   ("City", JSVal.strV "Ankara")]

/-- A second concrete customer record used in witnesses. -/
def custB : JSRec :=
  [("CustomerID", JSVal.numV 2), ("CustomerName", JSVal.strV "Banu"),
   ("City", JSVal.strV "Bursa")]

/-- Witness for C1 at a concrete two-customer dataset. -/
theorem indexBy_lookup_correct_witness :
    ([custA, custB].map fun r => keyOf r "CustomerID").Nodup ∧
    jsGet (indexBy [custA, custB] "CustomerID") (keyOf custA "CustomerID")
      = some custA ∧
    jsGet (indexBy [custA, custB] "CustomerID") "999" = none :=
  ⟨by decide,
   (indexBy_lookup_correct [custA, custB] "CustomerID" (by decide)).1 custA
     (by decide),
   (indexBy_lookup_correct [custA, custB] "CustomerID" (by decide)).2 "999"
     (by decide)⟩

/-! ## Aggregation: `groupCount`, `groupSum`, and `Object.entries` order -/

/-- Decimal value of a digit character. -/
def digitVal (c : Char) : Nat := c.toNat - 48

/-- Value of a list of decimal digit characters. -/
def digitsToNat (cs : List Char) : Nat :=
  cs.foldl (fun a c => a * 10 + digitVal c) 0

/-- A property key is an array index (ECMAScript ordinary own-property-key
ordering) when it is the canonical decimal string of a natural number
below `2 ^ 32 - 1`. -/
def isArrayIndexKey (s : String) : Bool :=
  !s.data.isEmpty && s.data.all (fun c => c.isDigit)
    && (toString (digitsToNat s.data) == s)
    && decide (digitsToNat s.data < 4294967295)

/-- Numeric value of an array-index key (`0` for other keys). -/
def arrayIndexVal (s : String) : Nat := digitsToNat s.data

/-- Insert an entry into a list sorted by ascending array-index value. -/
def insertByIndex {α : Type} (p : String × α) :
    List (String × α) → List (String × α)
  | [] => [p]
  | q :: qs =>
    if arrayIndexVal p.1 ≤ arrayIndexVal q.1 then p :: q :: qs
    else q :: insertByIndex p qs

/-- Insertion sort of entries by ascending array-index value. -/
def sortByIndex {α : Type} (l : List (String × α)) : List (String × α) :=
  l.foldr insertByIndex []

/-- `Object.entries(m)`: entries whose keys are array indices come first,
in ascending numeric order, followed by the remaining string-keyed
entries in insertion order. -/
def jsEntries {α : Type} (m : List (String × α)) : List (String × α) :=
  sortByIndex (m.filter fun p => isArrayIndexKey p.1)
    ++ m.filter (fun p => !isArrayIndexKey p.1)

/-- `groupCount(items, key)` from `src/dashboard.js` lines 32-37:
`acc[item[key]] = (acc[item[key]] || 0) + 1`.  On integer counts
`x || 0` is exactly `Option.getD 0` (an absent property is `undefined`,
hence falsy). -/
def groupCount (items : List JSRec) (key : String) : List (String × Int) :=
  items.foldl (fun acc item =>
    jsSet acc (keyOf item key) ((jsGet acc (keyOf item key)).getD 0 + 1)) []

/-- Numeric value of a `JSVal`; adding a non-number produces NaN in
JavaScript, so theorems about `groupSum` assume (via `isNumV`) that every
summed field is a number, and the default branch is never exercised. -/
def jsNumVal : JSVal → Int
  | JSVal.numV n => n
  | _ => 0

/-- Whether a `JSVal` is a number. -/
def isNumV : JSVal → Bool
  | JSVal.numV _ => true
  | _ => false

/-- `groupSum(items, key, valueKey)` from `src/dashboard.js` lines 39-44:
`acc[item[key]] = (acc[item[key]] || 0) + item[valueKey]`. -/
def groupSum (items : List JSRec) (key valueKey : String) :
    List (String × Int) :=
  items.foldl (fun acc item =>
    jsSet acc (keyOf item key)
      ((jsGet acc (keyOf item key)).getD 0
        + jsNumVal (getField item valueKey))) []

/-- Sum of the values of an accumulator object. -/
def sumSnd (m : List (String × Int)) : Int := (m.map Prod.snd).sum

theorem sumSnd_jsSet_add (m : List (String × Int)) (k : String) (d : Int) :
    sumSnd (jsSet m k ((jsGet m k).getD 0 + d)) = sumSnd m + d := by
  induction m with
  | nil => simp [jsSet, sumSnd]
  | cons p ps ih =>
    by_cases h : p.1 = k
    · simp [jsSet, sumSnd, h]
      ring
    · simp only [jsGet_cons, h, if_false, jsSet]
      simp only [sumSnd, List.map_cons, List.sum_cons] at ih ⊢
      rw [ih]
      ring

theorem keys_jsSet {α : Type} (m : List (String × α)) (k : String) (v : α) :
    (jsSet m k v).map Prod.fst =
      if k ∈ m.map Prod.fst then m.map Prod.fst
      else m.map Prod.fst ++ [k] := by
  induction m with
  | nil => simp [jsSet]
  | cons p ps ih =>
    by_cases h : p.1 = k
    · simp [jsSet, h]
    · have h' : ¬ k = p.1 := fun hh => h hh.symm
      simp only [jsSet, h, if_false, List.map_cons, List.mem_cons, h',
        false_or, ih]
      by_cases hk : k ∈ ps.map Prod.fst <;> simp [hk]

/-- Spec-side definition: the distinct values of a list in their order of
first appearance. -/
def firstAppearanceKeys (ks : List String) : List String :=
  ks.foldl (fun acc k => if k ∈ acc then acc else acc ++ [k]) []

theorem keys_groupFold (κ : JSRec → String) (f : JSRec → Int) :
    ∀ (items : List JSRec) (acc : List (String × Int)),
      (items.foldl (fun a it =>
          jsSet a (κ it) ((jsGet a (κ it)).getD 0 + f it)) acc).map Prod.fst
        = (items.map κ).foldl
            (fun ks k => if k ∈ ks then ks else ks ++ [k])
            (acc.map Prod.fst) := by
  intro items
  induction items with
  | nil => intro acc; rfl
  | cons i rest ih =>
    intro acc
    simp only [List.foldl_cons, List.map_cons]
    rw [ih, keys_jsSet]

theorem sumSnd_groupFold (κ : JSRec → String) (f : JSRec → Int) :
    ∀ (items : List JSRec) (acc : List (String × Int)),
      sumSnd (items.foldl (fun a it =>
          jsSet a (κ it) ((jsGet a (κ it)).getD 0 + f it)) acc)
        = sumSnd acc + (items.map f).sum := by
  intro items
  induction items with
  | nil => intro acc; simp
  | cons i rest ih =>
    intro acc
    simp only [List.foldl_cons, List.map_cons, List.sum_cons]
    rw [ih, sumSnd_jsSet_add]
    ring

theorem sum_map_one (items : List JSRec) :
    (items.map fun _ => (1 : Int)).sum = (items.length : Int) := by
  induction items with
  | nil => rfl
  | cons i rest ih =>
    simp [ih]
    ring

/-- C6: the counts produced by `groupCount` sum to the length of the
input sequence. -/
theorem groupCount_total (items : List JSRec) (key : String) :
    sumSnd (groupCount items key) = (items.length : Int) := by
  have h := sumSnd_groupFold (fun it => keyOf it key) (fun _ => 1) items []
  simpa [groupCount, sumSnd, sum_map_one items] using h

/-- C7: the per-group sums produced by `groupSum` add up to the sum of
the value field over the whole input sequence (exact arithmetic; every
summed field is assumed to be a number, as non-numbers would give NaN). -/
theorem groupSum_total (items : List JSRec) (key valueKey : String)
    (_hnum : ∀ r ∈ items, isNumV (getField r valueKey) = true) :
    sumSnd (groupSum items key valueKey)
      = (items.map fun r => jsNumVal (getField r valueKey)).sum := by
  have h := sumSnd_groupFold (fun it => keyOf it key)
      (fun it => jsNumVal (getField it valueKey)) items []
  simpa [groupSum, sumSnd] using h

/-- A concrete payment record used in witnesses. -/
def payA : JSRec :=
  [("OrderID", JSVal.numV 1), ("PaymentMethod", JSVal.strV "Card"),
   ("Amount", JSVal.numV 100)]

/-- A second concrete payment record used in witnesses. -/
def payB : JSRec :=
  [("OrderID", JSVal.numV 2), ("PaymentMethod", JSVal.strV "Cash"),
   ("Amount", JSVal.numV 50)]

/-- A third concrete payment record used in witnesses. -/
def payC : JSRec :=
  [("OrderID", JSVal.numV 3), ("PaymentMethod", JSVal.strV "Card"),
   ("Amount", JSVal.numV 25)]

/-- Witness for C7 at a concrete three-payment dataset. -/
theorem groupSum_total_witness :
    (∀ r ∈ [payA, payB, payC], isNumV (getField r "Amount") = true) ∧
    sumSnd (groupSum [payA, payB, payC] "PaymentMethod" "Amount")
      = ([payA, payB, payC].map fun r => jsNumVal (getField r "Amount")).sum :=
  ⟨by decide, groupSum_total [payA, payB, payC] "PaymentMethod" "Amount"
    (by decide)⟩

/-- A concrete service-request record with numeric ProductID 10. -/
def svcA : JSRec :=
  [("ServiceID", JSVal.numV 1), ("ProductID", JSVal.numV 10)]

/-- A concrete service-request record with numeric ProductID 2. -/
def svcB : JSRec :=
  [("ServiceID", JSVal.numV 2), ("ProductID", JSVal.numV 2)]

/-- C2 counterexample: with numeric group keys (ProductID 10 seen before
ProductID 2), the enumeration order of the `groupCount` result is the
ascending numeric order `["2", "10"]`, not the first-appearance order
`["10", "2"]`. -/
theorem groupCount_entries_order_counterexample :
    (jsEntries (groupCount [svcA, svcB] "ProductID")).map Prod.fst
      ≠ firstAppearanceKeys ([svcA, svcB].map fun r => keyOf r "ProductID") := by
  decide

theorem filter_eq_nil_of_all_false {α : Type} (p : α → Bool) (l : List α)
    (h : ∀ a ∈ l, p a = false) : l.filter p = [] := by
  induction l with
  | nil => rfl
  | cons x xs ih =>
    rw [List.filter_cons, h x (List.mem_cons_self x xs)]
    exact ih fun a ha => h a (List.mem_cons_of_mem x ha)

theorem filter_not_eq_self_of_all_false {α : Type} (p : α → Bool) (l : List α)
    (h : ∀ a ∈ l, p a = false) : l.filter (fun a => !p a) = l := by
  induction l with
  | nil => rfl
  | cons x xs ih =>
    rw [List.filter_cons, h x (List.mem_cons_self x xs)]
    simp only [Bool.not_false, if_true]
    rw [ih fun a ha => h a (List.mem_cons_of_mem x ha)]

theorem jsEntries_eq_self {α : Type} (m : List (String × α))
    (h : ∀ p ∈ m, isArrayIndexKey p.1 = false) : jsEntries m = m := by
  unfold jsEntries
  rw [filter_eq_nil_of_all_false _ m fun p hp => h p hp,
    filter_not_eq_self_of_all_false _ m fun p hp => h p hp]
  rfl

/-- C2 amended: for group keys that are not array-index strings (such as
status or payment-method strings), the enumeration order of the
`groupCount` / `groupSum` result is the first-appearance order of the
group keys; array-index keys (numeric IDs) would instead be enumerated
first, in ascending numeric order. -/
theorem groupEntries_first_appearance (items : List JSRec)
    (key valueKey : String)
    (hc : ∀ p ∈ groupCount items key, isArrayIndexKey p.1 = false)
    (hs : ∀ p ∈ groupSum items key valueKey, isArrayIndexKey p.1 = false) :
    (jsEntries (groupCount items key)).map Prod.fst
        = firstAppearanceKeys (items.map fun r => keyOf r key) ∧
    (jsEntries (groupSum items key valueKey)).map Prod.fst
        = firstAppearanceKeys (items.map fun r => keyOf r key) := by
  constructor
  · rw [jsEntries_eq_self _ hc]
    have h := keys_groupFold (fun it => keyOf it key) (fun _ => 1) items []
    simpa [groupCount, firstAppearanceKeys] using h
  · rw [jsEntries_eq_self _ hs]
    have h := keys_groupFold (fun it => keyOf it key)
        (fun it => jsNumVal (getField it valueKey)) items []
    simpa [groupSum, firstAppearanceKeys] using h

/-- A concrete order record used in witnesses. -/
def ordA : JSRec :=
  [("OrderID", JSVal.numV 1), ("Status", JSVal.strV "Delivered")]

/-- A second concrete order record used in witnesses. -/
def ordB : JSRec :=
  [("OrderID", JSVal.numV 2), ("Status", JSVal.strV "Pending")]

/-- A third concrete order record used in witnesses. -/
def ordC : JSRec :=
  [("OrderID", JSVal.numV 3), ("Status", JSVal.strV "Delivered")]

/-- Witness for the amended C2 at a concrete three-order dataset grouped
by the string-valued Status field. -/
theorem groupEntries_first_appearance_witness :
    (∀ p ∈ groupCount [ordA, ordB, ordC] "Status",
      isArrayIndexKey p.1 = false) ∧
    (jsEntries (groupCount [ordA, ordB, ordC] "Status")).map Prod.fst
      = firstAppearanceKeys ([ordA, ordB, ordC].map fun r => keyOf r "Status") :=
  ⟨by decide,
   (groupEntries_first_appearance [ordA, ordB, ordC] "Status" "Status"
     (by decide) (by decide)).1⟩

/-! ## HTML escaping -/

/-- `replaceAll` with a single-character pattern, at the character-list
level: every occurrence of `c` is replaced by `r`. -/
def replaceAllCharL : List Char → Char → List Char → List Char
  | [], _, _ => []
  | ch :: cs, c, r => (if ch = c then r else [ch]) ++ replaceAllCharL cs c r

/-- `s.replaceAll(c, r)` for a single-character pattern `c`. -/
def replaceAllChar (s : String) (c : Char) (r : String) : String :=
  String.mk (replaceAllCharL s.data c r.data)

/-- `escapeHTML(str)` from `src/dashboard.js` lines 16-23:
`String(str ?? "")` followed by the five `replaceAll` passes for
`& < > " '`. -/
def escapeHTML (v : JSVal) : String :=
  let s := match v with
    | JSVal.nullV => ""
    | JSVal.undefV => ""
    | x => jsToString x
  replaceAllChar (replaceAllChar (replaceAllChar (replaceAllChar
    (replaceAllChar s '&' "&amp;") '<' "&lt;") '>' "&gt;") '"' "&quot;")
    '\'' "&#039;"

/-- The five-pass replacement chain at the character-list level. -/
def escapeChainL (cs : List Char) : List Char :=
  replaceAllCharL (replaceAllCharL (replaceAllCharL (replaceAllCharL
    (replaceAllCharL cs '&' "&amp;".data) '<' "&lt;".data) '>' "&gt;".data)
    '"' "&quot;".data) '\'' "&#039;".data

/-- Spec-side: the HTML-entity expansion of a single character. -/
def escapeCharSpec (c : Char) : List Char :=
  if c = '&' then "&amp;".data
  else if c = '<' then "&lt;".data
  else if c = '>' then "&gt;".data
  else if c = '"' then "&quot;".data
  else if c = '\'' then "&#039;".data
  else [c]

/-- Spec-side: character-by-character entity expansion of a string. -/
def escapeSpecL : List Char → List Char
  | [] => []
  | c :: cs => escapeCharSpec c ++ escapeSpecL cs

theorem replaceAllCharL_append (a b : List Char) (c : Char) (r : List Char) :
    replaceAllCharL (a ++ b) c r
      = replaceAllCharL a c r ++ replaceAllCharL b c r := by
  induction a with
  | nil => rfl
  | cons x xs ih => simp [replaceAllCharL, ih, List.append_assoc]

theorem escapeChainL_append (a b : List Char) :
    escapeChainL (a ++ b) = escapeChainL a ++ escapeChainL b := by
  simp [escapeChainL, replaceAllCharL_append]

theorem escapeChainL_single (c : Char) :
    escapeChainL [c] = escapeCharSpec c := by
  by_cases h1 : c = '&'
  · subst h1; decide
  · by_cases h2 : c = '<'
    · subst h2; decide
    · by_cases h3 : c = '>'
      · subst h3; decide
      · by_cases h4 : c = '"'
        · subst h4; decide
        · by_cases h5 : c = '\''
          · subst h5; decide
          · simp [escapeChainL, replaceAllCharL, escapeCharSpec,
              h1, h2, h3, h4, h5]

theorem escapeChainL_eq_spec (cs : List Char) :
    escapeChainL cs = escapeSpecL cs := by
  induction cs with
  | nil => rfl
  | cons c rest ih =>
    have hsplit : c :: rest = [c] ++ rest := rfl
    rw [hsplit, escapeChainL_append, escapeChainL_single, ih]
    rfl

theorem lt_not_mem_escapeCharSpec (c : Char) : '<' ∉ escapeCharSpec c := by
  by_cases h1 : c = '&'
  · subst h1; decide
  · by_cases h2 : c = '<'
    · subst h2; decide
    · by_cases h3 : c = '>'
      · subst h3; decide
      · by_cases h4 : c = '"'
        · subst h4; decide
        · by_cases h5 : c = '\''
          · subst h5; decide
          · simp [escapeCharSpec, h1, h2, h3, h4, h5]
            exact fun hh => h2 hh.symm

theorem lt_not_mem_escapeSpecL (cs : List Char) : '<' ∉ escapeSpecL cs := by
  induction cs with
  | nil => simp [escapeSpecL]
  | cons c rest ih =>
    simp only [escapeSpecL, List.mem_append]
    intro h
    rcases h with h | h
    · exact lt_not_mem_escapeCharSpec c h
    · exact ih h

/-- C4: `escapeHTML` expands each of the five reserved characters
`& < > " '` to its HTML entity character by character, and consequently
the output never contains a literal `<script>` substring (it contains no
literal `<` at all). -/
theorem escapeHTML_escapes (s : String) :
    (escapeHTML (JSVal.strV s)).data = escapeSpecL s.data ∧
    ¬ List.IsInfix ("<script>".data) ((escapeHTML (JSVal.strV s)).data) := by
  have hdata : (escapeHTML (JSVal.strV s)).data = escapeChainL s.data := rfl
  constructor
  · rw [hdata, escapeChainL_eq_spec]
  · rw [hdata, escapeChainL_eq_spec]
    intro hinf
    obtain ⟨u, w, huw⟩ := hinf
    have hmem : '<' ∈ escapeSpecL s.data := by
      rw [← huw]
      have : '<' ∈ ("<script>".data) := by decide
      simp [List.mem_append, this]
    exact lt_not_mem_escapeSpecL s.data hmem

/-- C9: `escapeHTML` maps both `null` and `undefined` to the empty
string rather than to the strings "null" or "undefined". -/
theorem escapeHTML_nullish :
    escapeHTML JSVal.nullV = "" ∧ escapeHTML JSVal.undefV = "" ∧
    escapeHTML JSVal.nullV ≠ "null" ∧
    escapeHTML JSVal.undefV ≠ "undefined" :=
  ⟨by decide, by decide, by decide, by decide⟩

/-! ## `Number(...)` conversion of the `id` query parameter -/

/-- A JavaScript number as produced by `Number(...)`: NaN, a signed
infinity, or a finite value represented exactly as the scaled integer
`m * 10 ^ e` (mantissa and decimal exponent). -/
inductive JSNum where
  | nan
  | inf (neg : Bool)
  | fin (m : Int) (e : Int)
  deriving DecidableEq

/-- Split a character list at the first character satisfying `p`: the
prefix before it and, when found, the suffix after it. -/
def splitFirst (p : Char → Bool) : List Char → List Char × Option (List Char)
  | [] => ([], none)
  | c :: cs =>
    if p c then ([], some cs)
    else
      let r := splitFirst p cs
      (c :: r.1, r.2)

/-- Parse an ECMAScript ExponentPart body: optional sign, then at least
one decimal digit. -/
def parseExp (cs : List Char) : Option Int :=
  match cs with
  | '+' :: ds =>
    if !ds.isEmpty && ds.all (fun c => c.isDigit) then
      some ((digitsToNat ds : Nat))
    else none
  | '-' :: ds =>
    if !ds.isEmpty && ds.all (fun c => c.isDigit) then
      some (-(digitsToNat ds : Int))
    else none
  | ds =>
    if !ds.isEmpty && ds.all (fun c => c.isDigit) then
      some ((digitsToNat ds : Nat))
    else none

/-- Parse an ECMAScript decimal mantissa `digits [. digits]`, requiring
at least one digit overall; the value is returned as a scaled integer
`(m, e)` meaning `m * 10 ^ e`. -/
def parseMantissa (cs : List Char) : Option (Int × Int) :=
  match splitFirst (fun c => c = '.') cs with
  | (ip, none) =>
    if !ip.isEmpty && ip.all (fun c => c.isDigit) then
      some ((digitsToNat ip : Nat), 0)
    else none
  | (ip, some fp) =>
    if ip.all (fun c => c.isDigit) && fp.all (fun c => c.isDigit)
        && !(ip.isEmpty && fp.isEmpty) then
      some ((digitsToNat (ip ++ fp) : Nat), -(fp.length : Int))
    else none

/-- Parse an unsigned ECMAScript StrDecimalLiteral:
`mantissa [(e|E) exponent]`, as a scaled integer. -/
def parseDecimalNumber (cs : List Char) : Option (Int × Int) :=
  match splitFirst (fun c => c = 'e' || c = 'E') cs with
  | (mant, none) => parseMantissa mant
  | (mant, some ep) =>
    match parseMantissa mant, parseExp ep with
    | some me, some e => some (me.1, me.2 + e)
    | _, _ => none

/-- Conversion of a trimmed numeric string without a radix prefix:
optional sign, then `Infinity` or a decimal literal; otherwise NaN. -/
def strToNumberSigned (cs : List Char) : JSNum :=
  let sb : Bool × List Char :=
    match cs with
    | '+' :: r => (false, r)
    | '-' :: r => (true, r)
    | r => (false, r)
  if sb.2 = "Infinity".data then JSNum.inf sb.1
  else
    match parseDecimalNumber sb.2 with
    | some me => JSNum.fin (if sb.1 then -me.1 else me.1) me.2
    | none => JSNum.nan

/-- Hexadecimal digit test. -/
def isHexDigit (c : Char) : Bool :=
  c.isDigit || ('a' ≤ c && c ≤ 'f') || ('A' ≤ c && c ≤ 'F')

/-- Hexadecimal digit value. -/
def hexVal (c : Char) : Nat :=
  if c.isDigit then c.toNat - 48
  else if 'a' ≤ c && c ≤ 'f' then c.toNat - 87
  else c.toNat - 55

/-- Value of a digit list in radix `r` under digit valuation `f`. -/
def radixToNat (r : Nat) (f : Char → Nat) (cs : List Char) : Nat :=
  cs.foldl (fun a c => a * r + f c) 0

/-- ECMAScript WhiteSpace or LineTerminator, as stripped by
`Number(...)` string conversion. -/
def isJsSpace (c : Char) : Bool :=
  c.toNat = 9 || c.toNat = 10 || c.toNat = 11 || c.toNat = 12
    || c.toNat = 13 || c.toNat = 32 || c.toNat = 160 || c.toNat = 5760
    || (8192 ≤ c.toNat && c.toNat ≤ 8202)
    || c.toNat = 8232 || c.toNat = 8233 || c.toNat = 8239
    || c.toNat = 8287 || c.toNat = 12288 || c.toNat = 65279

/-- Strip leading and trailing ECMAScript whitespace. -/
def jsTrim (cs : List Char) : List Char :=
  ((cs.dropWhile isJsSpace).reverse.dropWhile isJsSpace).reverse

/-- JavaScript `Number(s)` on a string: trim; empty means `0`;
`0x`/`0o`/`0b` radix literals (no sign allowed); otherwise an optionally
signed decimal literal or `Infinity`; anything else is NaN. -/
def strToNumber (s : String) : JSNum :=
  match jsTrim s.data with
  | [] => JSNum.fin 0 0
  | '0' :: c :: rest =>
    if c = 'x' || c = 'X' then
      if !rest.isEmpty && rest.all isHexDigit then
        JSNum.fin ((radixToNat 16 hexVal rest : Nat)) 0
      else JSNum.nan
    else if c = 'o' || c = 'O' then
      if !rest.isEmpty && rest.all (fun d => '0' ≤ d && d ≤ '7') then
        JSNum.fin ((radixToNat 8 digitVal rest : Nat)) 0
      else JSNum.nan
    else if c = 'b' || c = 'B' then
      if !rest.isEmpty && rest.all (fun d => d = '0' || d = '1') then
        JSNum.fin ((radixToNat 2 digitVal rest : Nat)) 0
      else JSNum.nan
    else strToNumberSigned ('0' :: c :: rest)
  | cs => strToNumberSigned cs

/-- `Number(getParam("id"))`: `getParam` yields `null` when the
parameter is absent and `Number(null)` is `0`; a present string is
converted by `strToNumber`. -/
def jsNumber : Option String → JSNum
  | none => JSNum.fin 0 0
  | some s => strToNumber s

/-- JavaScript truthiness of a number: NaN and `0` are falsy. -/
def jsTruthy : JSNum → Bool
  | JSNum.nan => false
  | JSNum.inf _ => true
  | JSNum.fin m _ => m ≠ 0

/-- JavaScript `v === x` between a record field and a converted number:
true exactly when both are finite numbers of equal value
(`n = m * 10 ^ e`, decided over scaled integers). -/
def jsStrictEqNum (v : JSVal) (x : JSNum) : Bool :=
  match v, x with
  | JSVal.numV n, JSNum.fin m e =>
    if 0 ≤ e then n = m * (10 : Int) ^ e.toNat
    else n * (10 : Int) ^ (-e).toNat = m
  | _, _ => false

/-! ## Pages, DOM writes, and the render functions -/

/-- The page state a render function observes: the ids of the container
elements present in the document, and the value of the `id` query
parameter (`none` when absent, as returned by `getParam`). -/
structure Page where
  containers : List String
  queryId : Option String

/-- A DOM mutation performed by a render function: the target container
id and the string written into it.  Render functions are modelled as the
list of mutations they perform, in order. -/
abbrev DomWrite := String × String

/-- `setText(id, value)` from `src/dashboard.js` lines 51-54: write only
when the element exists. -/
def setText (pg : Page) (cid v : String) : List DomWrite :=
  if cid ∈ pg.containers then [(cid, v)] else []

/-- `setHTML(id, value)` from `src/dashboard.js` lines 55-58: write only
when the element exists. -/
def setHTML (pg : Page) (cid v : String) : List DomWrite :=
  if cid ∈ pg.containers then [(cid, v)] else []

/-- The customer join label from `src/dashboard.js` lines 121-124 and
164-167: the indexed customer's "Name (City)" when the foreign key
resolves, else the placeholder `#<id>`. -/
def customerLabel (customerById : List (String × JSRec)) (cid : JSVal) :
    String :=
  match jsGet customerById (jsToString cid) with
  | some c =>
      escapeHTML (getField c "CustomerName") ++ " ("
        ++ escapeHTML (getField c "City") ++ ")"
  | none => "#" ++ jsToString cid

/-- `initDashboard()` from `src/dashboard.js` lines 63-101, as the list
of DOM writes it performs once its datasets have loaded.  `fmt`
abstracts the locale-dependent `formatTRY`. -/
def initDashboard (pg : Page) (fmt : JSVal → String)
    (orders payments deliveries : List JSRec) : List DomWrite :=
  if "totalOrders" ∈ pg.containers then
    let revenue : Int :=
      payments.foldl (fun sum p => sum + jsNumVal (getField p "Amount")) 0
    let delivered :=
      (orders.filter fun o =>
        getField o "Status" = JSVal.strV "Delivered").length
    let inTransit :=
      (deliveries.filter fun d =>
        getField d "Status" = JSVal.strV "In Transit").length
    setText pg "totalOrders" (toString orders.length)
      ++ setText pg "totalRevenue" (fmt (JSVal.numV revenue))
      ++ setText pg "deliveredOrders" (toString delivered)
      ++ setText pg "inTransit" (toString inTransit)
      ++ (if "orderStatusList" ∈ pg.containers then
            [("orderStatusList",
              String.join ((jsEntries (groupCount orders "Status")).map
                fun en => "<li>" ++ escapeHTML (JSVal.strV en.1)
                  ++ ": <strong>" ++ jsToString (JSVal.numV en.2)
                  ++ "</strong></li>"))]
          else [])
      ++ (if "paymentMethodList" ∈ pg.containers then
            [("paymentMethodList",
              String.join
                ((jsEntries (groupSum payments "PaymentMethod" "Amount")).map
                  fun en => "<li>" ++ escapeHTML (JSVal.strV en.1)
                    ++ ": <strong>" ++ fmt (JSVal.numV en.2)
                    ++ "</strong></li>"))]
          else [])
  else []

/-- `loadOrderDetail()` from `src/dashboard.js` lines 142-203, as the
list of DOM writes it performs.  `fmt` abstracts `formatTRY`. -/
def loadOrderDetail (pg : Page) (fmt : JSVal → String)
    (orders orderItems payments deliveries customers products : List JSRec) :
    List DomWrite :=
  if "orderInfo" ∈ pg.containers then
    let orderId := jsNumber pg.queryId
    if jsTruthy orderId then
      let customerById := indexBy customers "CustomerID"
      let productById := indexBy products "ProductID"
      match orders.find?
          (fun o => jsStrictEqNum (getField o "OrderID") orderId) with
      | some order =>
        setHTML pg "orderInfo"
          ("\n    <h3>Order #" ++ jsToString (getField order "OrderID")
            ++ "</h3>\n    <p>Status: <strong>"
            ++ escapeHTML (getField order "Status")
            ++ "</strong></p>\n    <p>Customer: "
            ++ customerLabel customerById (getField order "CustomerID")
            ++ "</p>\n    <p>Total: <strong>"
            ++ fmt (getField order "TotalAmount")
            ++ "</strong></p>\n  ")
        ++ (if "itemsList" ∈ pg.containers then
              [("itemsList",
                String.join
                  ((orderItems.filter fun i =>
                      jsStrictEqNum (getField i "OrderID") orderId).map
                    fun i =>
                      let prodLabel :=
                        match jsGet productById
                            (jsToString (getField i "ProductID")) with
                        | some p =>
                            escapeHTML (getField p "Brand") ++ " "
                              ++ escapeHTML (getField p "Model") ++ " (ID "
                              ++ jsToString (getField i "ProductID") ++ ")"
                        | none =>
                            "Product " ++ jsToString (getField i "ProductID")
                      "<li>" ++ prodLabel ++ " — "
                        ++ jsToString (getField i "Quantity") ++ " × "
                        ++ fmt (getField i "UnitPrice") ++ "</li>"))]
            else [])
        ++ setHTML pg "paymentInfo"
          (match payments.find?
              (fun p => jsStrictEqNum (getField p "OrderID") orderId) with
           | some payment =>
               "<h3>Payment</h3><p>"
                 ++ escapeHTML (getField payment "PaymentMethod") ++ " — "
                 ++ fmt (getField payment "Amount") ++ "</p>"
           | none =>
               "<h3>Payment</h3><p class=\"muted\">No payment record</p>")
        ++ setHTML pg "deliveryInfo"
          (match deliveries.find?
              (fun d => jsStrictEqNum (getField d "OrderID") orderId) with
           | some delivery =>
               "<h3>Delivery</h3>\n       <p>"
                 ++ escapeHTML (getField delivery "ShippingCompany")
                 ++ "</p>\n       <p>Tracking: "
                 ++ escapeHTML (getField delivery "TrackingNumber")
                 ++ "</p>\n       <p>Status: "
                 ++ escapeHTML (getField delivery "Status") ++ "</p>"
           | none =>
               "<h3>Delivery</h3><p class=\"muted\">No delivery record</p>")
      | none => []
    else []
  else []

/-- `loadServiceDetail()` from `src/dashboard.js` lines 279-315, as the
list of DOM writes it performs. -/
def loadServiceDetail (pg : Page)
    (services customers products : List JSRec) : List DomWrite :=
  if "serviceInfo" ∈ pg.containers then
    let sid := jsNumber pg.queryId
    if jsTruthy sid then
      let customerById := indexBy customers "CustomerID"
      let productById := indexBy products "ProductID"
      match services.find?
          (fun x => jsStrictEqNum (getField x "ServiceID") sid) with
      | some s =>
        let productLabel :=
          match jsGet productById (jsToString (getField s "ProductID")) with
          | some p =>
              escapeHTML (getField p "Brand") ++ " "
                ++ escapeHTML (getField p "Model") ++ " (Warranty: "
                ++ jsToString (getField p "WarrantyPeriod") ++ " mo)"
          | none => "#" ++ jsToString (getField s "ProductID")
        setHTML pg "serviceInfo"
          ("\n    <h3>Service Request #" ++ jsToString (getField s "ServiceID")
            ++ "</h3>\n    <p>Status: <strong>"
            ++ escapeHTML (getField s "Status")
            ++ "</strong></p>\n    <p>Customer: "
            ++ customerLabel customerById (getField s "CustomerID")
            ++ "</p>\n    <p>Product: " ++ productLabel
            ++ "</p>\n    <p>Date: " ++ jsToString (getField s "RequestDate")
            ++ "</p>\n    <h4 style=\"margin-top:14px;\">Issue Description</h4>"
            ++ "\n    <p>" ++ escapeHTML (getField s "IssueDescription")
            ++ "</p>\n  ")
      | none => []
    else []
  else []

/-- C3: when an order's CustomerID is absent from the indexed customer
set, the join degrades to the placeholder label `#<id>` instead of
raising an error, for every foreign-key value that occurs in no
customer record. -/
theorem join_fallback_label (customers : List JSRec) (o : JSRec)
    (habs : jsToString (getField o "CustomerID")
      ∉ customers.map fun c => keyOf c "CustomerID") :
    customerLabel (indexBy customers "CustomerID") (getField o "CustomerID")
      = "#" ++ jsToString (getField o "CustomerID") := by
  have h : jsGet (indexBy customers "CustomerID")
      (jsToString (getField o "CustomerID")) = none := by
    rw [indexBy, indexBy_go_not_mem "CustomerID" customers [] _ habs, jsGet_nil]
  simp [customerLabel, h]

/-- A concrete order whose CustomerID 999 matches no customer. -/
def ord999 : JSRec :=
  [("OrderID", JSVal.numV 7), ("CustomerID", JSVal.numV 999)]

/-- Witness for C3: CustomerID 999, absent from the customer set,
renders as the placeholder `#999`. -/
theorem join_fallback_label_witness :
    (jsToString (getField ord999 "CustomerID")
      ∉ [custA, custB].map fun c => keyOf c "CustomerID") ∧
    customerLabel (indexBy [custA, custB] "CustomerID")
      (getField ord999 "CustomerID") = "#999" := by
  refine ⟨by decide, ?_⟩
  rw [join_fallback_label [custA, custB] ord999 (by decide)]
  decide

/-- C5: when the `id` query parameter is absent, or present with a value
whose `Number(...)` conversion is NaN (a non-numeric value), the detail
render functions return before performing any DOM write. -/
theorem detail_invalid_id_noop (pg : Page) (fmt : JSVal → String)
    (orders orderItems payments deliveries customers products
      services : List JSRec)
    (h : pg.queryId = none ∨
      ∃ s, pg.queryId = some s ∧ strToNumber s = JSNum.nan) :
    loadOrderDetail pg fmt orders orderItems payments deliveries customers
      products = [] ∧
    loadServiceDetail pg services customers products = [] := by
  have hnum : jsTruthy (jsNumber pg.queryId) = false := by
    rcases h with h | ⟨s, hs, hnan⟩
    · rw [h]; rfl
    · rw [hs]
      simp [jsNumber, hnan, jsTruthy]
  constructor
  · simp [loadOrderDetail, hnum]
  · simp [loadServiceDetail, hnum]

/-- Witness for C5: absent `id` parameter on a page that does have the
detail containers. -/
theorem detail_invalid_id_noop_witness :
    ((Page.mk ["orderInfo", "serviceInfo"] none).queryId = none ∨
      ∃ s, (Page.mk ["orderInfo", "serviceInfo"] none).queryId = some s ∧
        strToNumber s = JSNum.nan) ∧
    loadOrderDetail (Page.mk ["orderInfo", "serviceInfo"] none) (fun _ => "")
      [] [] [] [] [] [] = [] ∧
    loadServiceDetail (Page.mk ["orderInfo", "serviceInfo"] none) [] [] []
      = [] := by
  refine ⟨Or.inl rfl, ?_, ?_⟩
  · exact (detail_invalid_id_noop (Page.mk ["orderInfo", "serviceInfo"] none)
      (fun _ => "") [] [] [] [] [] [] [] (Or.inl rfl)).1
  · exact (detail_invalid_id_noop (Page.mk ["orderInfo", "serviceInfo"] none)
      (fun _ => "") [] [] [] [] [] [] [] (Or.inl rfl)).2

/-- C8: a missing target container is a silent no-op: `setText` and
`setHTML` write nothing when the element is absent, and `initDashboard`
performs no write at all when its marker container `totalOrders` is
absent. -/
theorem missing_container_noop (pg : Page) (cid v : String)
    (fmt : JSVal → String) (orders payments deliveries : List JSRec) :
    (cid ∉ pg.containers → setText pg cid v = [] ∧ setHTML pg cid v = []) ∧
    ("totalOrders" ∉ pg.containers →
      initDashboard pg fmt orders payments deliveries = []) := by
  constructor
  · intro h
    exact ⟨by simp [setText, h], by simp [setHTML, h]⟩
  · intro h
    simp [initDashboard, h]

/-- Witness for C8 on a page with no containers at all. -/
theorem missing_container_noop_witness :
    ("totalOrders" ∉ (Page.mk [] none).containers) ∧
    setText (Page.mk [] none) "totalOrders" "5" = [] ∧
    setHTML (Page.mk [] none) "totalOrders" "5" = [] ∧
    initDashboard (Page.mk [] none) (fun _ => "") [] [] [] = [] := by
  refine ⟨by decide, ?_, ?_, ?_⟩
  · exact ((missing_container_noop (Page.mk [] none) "totalOrders" "5"
      (fun _ => "") [] [] []).1 (by decide)).1
  · exact ((missing_container_noop (Page.mk [] none) "totalOrders" "5"
      (fun _ => "") [] [] []).1 (by decide)).2
  · exact (missing_container_noop (Page.mk [] none) "totalOrders" "5"
      (fun _ => "") [] [] []).2 (by decide)

/-- C10: the parameter string "0" is numeric (`Number("0")` is the
number 0), yet the detail render functions abort with no DOM write,
because the converted id fails the truthiness guard: the abort condition
is "converted id is 0 or NaN", not merely "absent or non-numeric". -/
theorem detail_zero_id_noop :
    strToNumber "0" = JSNum.fin 0 0 ∧
    ∀ (pg : Page) (fmt : JSVal → String)
      (orders orderItems payments deliveries customers products
        services : List JSRec),
      pg.queryId = some "0" →
      loadOrderDetail pg fmt orders orderItems payments deliveries customers
        products = [] ∧
      loadServiceDetail pg services customers products = [] := by
  refine ⟨by decide, ?_⟩
  intro pg fmt orders orderItems payments deliveries customers products
    services hq
  have hnum : jsTruthy (jsNumber pg.queryId) = false := by
    rw [hq]
    decide
  exact ⟨by simp [loadOrderDetail, hnum], by simp [loadServiceDetail, hnum]⟩

/-- Witness for C10 at a concrete page carrying `id=0` with the detail
containers present. -/
theorem detail_zero_id_noop_witness :
    (Page.mk ["orderInfo", "serviceInfo"] (some "0")).queryId = some "0" ∧
    loadOrderDetail (Page.mk ["orderInfo", "serviceInfo"] (some "0"))
      (fun _ => "") [] [] [] [] [] [] = [] ∧
    loadServiceDetail (Page.mk ["orderInfo", "serviceInfo"] (some "0"))
      [] [] [] = [] := by
  refine ⟨rfl, ?_, ?_⟩
  · exact (detail_zero_id_noop.2 (Page.mk ["orderInfo", "serviceInfo"]
      (some "0")) (fun _ => "") [] [] [] [] [] [] [] rfl).1
  · exact (detail_zero_id_noop.2 (Page.mk ["orderInfo", "serviceInfo"]
      (some "0")) (fun _ => "") [] [] [] [] [] [] [] rfl).2
